import Mathlib

/-!
Verification of the tablecloth compositor engine (output render pipeline,
mode negotiation, and protocol-global binding) against its specification.

The development shallowly embeds the relevant source functions:
the structures mirror the data model of the engine, machine floats are
modelled as exact rationals, and pointers to workspaces are modelled as
numeric identities with an explicit lookup function, so that pointer
comparisons in the source become identity comparisons here.
-/

namespace Tablecloth

/-- A compositable surface: position, size, rotation and opacity,
mirroring the fields of the source View that the render pipeline reads. -/
structure View where
  x : ℚ
  y : ℚ
  width : Int
  height : Int
  rotation : ℚ
  alpha : ℚ
deriving DecidableEq, Repr

/-- Layout part of per-view render data, as built by get_render_data. -/
structure Layout where
  x : ℚ
  y : ℚ
  width : ℚ
  height : ℚ
  rotation : ℚ
deriving DecidableEq, Repr

/-- Per-view render data handed to the renderer. -/
structure RenderData where
  layout : Layout
  alpha : ℚ
deriving DecidableEq, Repr

/-- Embedding of get_render_data: packs a View's layout and opacity. -/
def get_render_data (v : View) : RenderData :=
  { layout := { x := v.x, y := v.y, width := (v.width : ℚ), height := (v.height : ℚ),
                rotation := v.rotation },
    alpha := v.alpha }

/-- A workspace: its index (used for slide direction), its ordered views,
and an optional fullscreen view. -/
structure Workspace where
  index : Nat
  views : List View
  fullscreen_view : Option View
deriving DecidableEq, Repr

/-- Modelled from the spec: the definition of Workspace::visible_views is not
among the provided sources (only its call sites in Output::render are).
Per the spec, section 4.3, it produces the workspace's view order filtered so
that when a fullscreen View is set, only that view is visible. -/
def Workspace.visible_views (w : Workspace) : List View :=
  match w.fullscreen_view with
  | some v => [v]
  | none => w.views

/-- The render batch: per-view render data plus an optional fullscreen view,
mirroring the output's render context. -/
structure RenderContext where
  views : List (View × RenderData)
  fullscreen_view : Option View
deriving DecidableEq, Repr

/-- Embedding of context.reset: an empty batch. -/
def RenderContext.reset : RenderContext := { views := [], fullscreen_view := none }

/-- The per-output state read and written by Output::render.  Workspaces are
identified by numeric identity (standing for their address); prev_workspace
is an optional identity, none standing for the null pointer. -/
structure OutputState where
  enabled : Bool
  width : Int
  ws_alpha : ℚ
  workspace : Nat
  prev_workspace : Option Nat
  context : RenderContext
deriving DecidableEq, Repr

/-- Observable effects emitted by one render invocation, in order. -/
inductive RenderEffect where
  | doRender : RenderContext → RenderEffect
  | damageWhole : RenderEffect
deriving DecidableEq, Repr

/-- The condition of the source line
if (prev_workspace != workspace and prev_workspace and ws_alpha >= 1.f):
a switch was requested (the previous workspace differs from the current one
and is non-null) and the previous transition has finished. -/
def switch_pending (o : OutputState) : Prop :=
  o.prev_workspace ≠ some o.workspace ∧ o.prev_workspace.isSome ∧ 1 ≤ o.ws_alpha

instance (o : OutputState) : Decidable (switch_pending o) := by
  unfold switch_pending; infer_instance

/-- Embedding of the ws_alpha update at the top of Output::render:
reset to 0 when a switch is pending, advance by 0.1 while at most 1,
then clamp down to 1. -/
def alpha_step (o : OutputState) : ℚ :=
  let a0 : ℚ := if switch_pending o then 0 else o.ws_alpha
  let a1 : ℚ := if a0 ≤ 1 then a0 + 1 / 10 else a0
  if 1 < a1 then 1 else a1

/-- The previous-workspace half of the transition batch: when the previous
workspace is non-null and 1 - ws_alpha is positive, every visible view of the
previous workspace, with opacity scaled by 1 - ws_alpha and its x shifted by
minus dx, where dx is output width times ws_alpha, negated when the current
workspace's index is below the previous one's. -/
def prev_views (wss : Nat → Workspace) (o : OutputState) (a2 : ℚ) :
    List (View × RenderData) :=
  match o.prev_workspace with
  | none => []
  | some p =>
    if 0 < 1 - a2 then
      let dx : ℚ :=
        if (wss o.workspace).index < (wss p).index then -((o.width : ℚ) * a2)
        else (o.width : ℚ) * a2
      ((wss p).visible_views).map (fun v =>
        (v, { get_render_data v with
                alpha := v.alpha * (1 - a2),
                layout.x := v.x - dx }))
    else []

/-- The current-workspace half of the transition batch: when ws_alpha is
positive, every visible view of the current workspace, with opacity scaled by
ws_alpha and its x shifted by plus dx, where dx is output width times
(1 - ws_alpha), negated when the current workspace's index is below the
(already updated) previous workspace's index. -/
def cur_views (wss : Nat → Workspace) (o : OutputState) (prevAfter : Option Nat)
    (a2 : ℚ) : List (View × RenderData) :=
  if 0 < a2 then
    let dx0 : ℚ := (o.width : ℚ) * (1 - a2)
    let dx : ℚ :=
      match prevAfter with
      | some p => if (wss o.workspace).index < (wss p).index then -dx0 else dx0
      | none => dx0
    ((wss o.workspace).visible_views).map (fun v =>
      (v, { get_render_data v with
              alpha := v.alpha * a2,
              layout.x := v.x + dx }))
  else []

/-- Embedding of Output::render.  The function wss resolves a workspace
identity to its contents (the pointed-to workspace).  Returns the updated
output state (its context holding the built batch) together with the ordered
list of emitted effects (the do_render call, then the whole-output damage
when the transition is still animating). -/
def render (wss : Nat → Workspace) (o : OutputState) :
    OutputState × List RenderEffect :=
  if o.enabled then
    let a2 : ℚ := alpha_step o
    if o.prev_workspace = some o.workspace ∧
        ((wss o.workspace).fullscreen_view).isSome then
      let ctx : RenderContext :=
        { RenderContext.reset with fullscreen_view := (wss o.workspace).fullscreen_view }
      ({ o with ws_alpha := a2, context := ctx },
        RenderEffect.doRender ctx ::
          (if a2 < 1 then [RenderEffect.damageWhole] else []))
    else
      let prevAfter : Option Nat :=
        if 1 ≤ a2 then some o.workspace else o.prev_workspace
      let ctx : RenderContext :=
        { RenderContext.reset with
            views := prev_views wss o a2 ++ cur_views wss o prevAfter a2 }
      ({ o with ws_alpha := a2, prev_workspace := prevAfter, context := ctx },
        RenderEffect.doRender ctx ::
          (if a2 < 1 then [RenderEffect.damageWhole] else []))
  else (o, [])

/-- Modelled from the spec: the workspace-switch routine is not among the
provided sources (Output::render only consumes the state it leaves behind).
Per the spec, section 4.3, switching is a pure state change: set
prev_workspace to the current workspace only if prev_workspace is currently
unset and ws_alpha is at least 1 (an overlapping switch while a transition is
in flight is rejected, not queued), set workspace to the target, and reset
ws_alpha to 0. -/
def switch_workspace (o : OutputState) (target : Nat) : OutputState :=
  if o.prev_workspace = none ∧ 1 ≤ o.ws_alpha then
    { o with prev_workspace := some o.workspace, workspace := target, ws_alpha := 0 }
  else o

/-- An advertised output mode; refresh is the integer refresh field in
millihertz. -/
structure OutputMode where
  width : Int
  height : Int
  refresh : Int
deriving DecidableEq, Repr

/-- The configured target mode of an output: dimensions plus a fractional
refresh rate in hertz. -/
structure ConfigMode where
  width : Int
  height : Int
  refresh_rate : ℚ
deriving DecidableEq, Repr

/-- Truncation toward zero: the behavior of the C int cast applied to
refresh_rate * 1000 in set_mode. -/
def ratTruncToZero (q : ℚ) : Int := if 0 ≤ q then ⌊q⌋ else ⌈q⌉

/-- Outcome of set_mode: request a custom mode, assign an advertised mode, or
log a configuration error and set nothing. -/
inductive SetModeResult where
  | custom : Int → Int → Int → SetModeResult
  | assign : OutputMode → SetModeResult
  | configError : SetModeResult
deriving DecidableEq, Repr

/-- The scan loop of set_mode over the advertised modes, carrying the best
match so far: on a width/height match, an exact refresh match is returned at
once (the loop breaks), otherwise the match replaces the best so far. -/
def set_mode_scan (cw ch mhz : Int) :
    List OutputMode → Option OutputMode → Option OutputMode
  | [], best => best
  | m :: rest, best =>
    if m.width = cw ∧ m.height = ch then
      if m.refresh = mhz then some m
      else set_mode_scan cw ch mhz rest (some m)
    else set_mode_scan cw ch mhz rest best

/-- Embedding of set_mode: compute the target millihertz by truncation; with
no advertised modes request a custom mode; otherwise scan for the best
width/height match and assign it, or report a configuration error when none
matches. -/
def set_mode (modes : List OutputMode) (oc : ConfigMode) : SetModeResult :=
  let mhz : Int := ratTruncToZero (oc.refresh_rate * 1000)
  if modes.isEmpty then SetModeResult.custom oc.width oc.height mhz
  else
    match set_mode_scan oc.width oc.height mhz modes none with
    | none => SetModeResult.configError
    | some best => SetModeResult.assign best

/-- Spec-side helper: the first advertised mode matching the target width,
height and exact millihertz refresh. -/
def firstExactMode (cw ch mhz : Int) : List OutputMode → Option OutputMode
  | [] => none
  | m :: rest =>
    if m.width = cw ∧ m.height = ch ∧ m.refresh = mhz then some m
    else firstExactMode cw ch mhz rest

/-- Spec-side helper: the last advertised mode matching the target width and
height in scan order (a later match shadows an earlier one). -/
def lastDimMode (cw ch : Int) : List OutputMode → Option OutputMode
  | [] => none
  | m :: rest =>
    if m.width = cw ∧ m.height = ch then
      (lastDimMode cw ch rest).orElse (fun _ => some m)
    else lastDimMode cw ch rest

/-- Per-output configuration relevant to mode negotiation at construction. -/
structure OutputConfig where
  enable : Bool
  mode : ConfigMode
deriving DecidableEq, Repr

/-- Embedding of the mode selection in the Output constructor before any
configuration is applied: the last entry of the advertised mode list is set
(the backend keeps the list ordered with the preferred mode last; the source
takes the list head's prev link, i.e. the final element). -/
def initial_mode (modes : List OutputMode) : Option OutputMode :=
  modes.getLast?

/-- The effect of a set_mode outcome on the output's current mode: a custom
request or an assignment installs that mode; a configuration error leaves the
prior mode. -/
def apply_set_mode (modes : List OutputMode) (oc : ConfigMode)
    (base : Option OutputMode) : Option OutputMode :=
  match set_mode modes oc with
  | SetModeResult.custom w h r => some { width := w, height := h, refresh := r }
  | SetModeResult.assign m => some m
  | SetModeResult.configError => base

/-- Embedding of the mode negotiation performed by the Output constructor
before the first render: first the backend-preferred (last advertised) mode
is set unconditionally; then, if a configuration exists for this output, is
enabled, and configures a mode (nonzero width), set_mode runs against it. -/
def construct_mode (modes : List OutputMode) (cfg : Option OutputConfig) :
    Option OutputMode :=
  let base := initial_mode modes
  match cfg with
  | some oc =>
    if oc.enable ∧ oc.mode.width ≠ 0 then apply_set_mode modes oc.mode base
    else base
  | none => base

/-- The interfaces distinguished by Client::bind_interfaces; any other
announced interface name falls into the last constructor. -/
inductive Iface where
  | virtualKeyboardManager
  | layerShell
  | seat
  | otherGlobal
deriving DecidableEq, Repr

/-- Which protocol proxies of the client are bound (a proxy tests false until
bound, as in the null check on seat in the source). -/
structure ClientState where
  virtual_keyboard_manager : Bool
  layer_shell : Bool
  seat : Bool
deriving DecidableEq, Repr

/-- Embedding of the on_global handler in Client::bind_interfaces: a
virtual-keyboard-manager or layer-shell announcement binds unconditionally;
a seat announcement binds only when no seat is bound yet.  Returns the new
state and the binds issued by this announcement. -/
def handle_global (s : ClientState) (i : Iface) : ClientState × List Iface :=
  match i with
  | Iface.virtualKeyboardManager =>
    ({ s with virtual_keyboard_manager := true }, [Iface.virtualKeyboardManager])
  | Iface.layerShell =>
    ({ s with layer_shell := true }, [Iface.layerShell])
  | Iface.seat =>
    if s.seat then (s, []) else ({ s with seat := true }, [Iface.seat])
  | Iface.otherGlobal => (s, [])

/-- Processing a sequence of global announcements through the on_global
handler, accumulating the binds issued in order. -/
def bind_interfaces (s : ClientState) : List Iface → ClientState × List Iface
  | [] => (s, [])
  | i :: rest =>
    let step := handle_global s i
    let next := bind_interfaces step.1 rest
    (next.1, step.2 ++ next.2)

/-! Concrete sample data used to instantiate the theorems below. -/

/-- A sample view on the current workspace. -/
def viewA : View := { x := 10, y := 0, width := 100, height := 100, rotation := 0, alpha := 1 }

/-- A sample view on the previous workspace. -/
def viewB : View := { x := 10, y := 0, width := 100, height := 100, rotation := 0, alpha := 1 }

/-- Sample target workspace, at index 0. -/
def wsCur : Workspace := { index := 0, views := [viewA], fullscreen_view := none }

/-- Sample origin workspace, at index 2. -/
def wsPrev : Workspace := { index := 2, views := [viewB], fullscreen_view := none }

/-- Sample workspace lookup: identity 2 is the origin workspace, everything
else the target workspace. -/
def sampleWss : Nat → Workspace := fun n => if n = 2 then wsPrev else wsCur

/-- A width-1000 output in the middle of a transition from workspace 2 to
workspace 0; its blend factor will advance from 0.2 to 0.3 this frame. -/
def outMid : OutputState :=
  { enabled := true, width := 1000, ws_alpha := 1 / 5, workspace := 0,
    prev_workspace := some 2, context := RenderContext.reset }

/-- An output whose transition is about to complete: the blend factor will
advance from 0.95 past 1 and clamp to 1 this frame. -/
def outFinishing : OutputState :=
  { enabled := true, width := 1000, ws_alpha := 19 / 20, workspace := 0,
    prev_workspace := some 2, context := RenderContext.reset }

/-- An output at rest after a completed transition: blend factor 1 and the
previous workspace equal to the current one. -/
def outDone : OutputState :=
  { enabled := true, width := 1000, ws_alpha := 1, workspace := 0,
    prev_workspace := some 0, context := RenderContext.reset }

/-- An output with no previous workspace recorded and a finished blend,
eligible for a new switch under the spec's switching rule. -/
def outFree : OutputState :=
  { enabled := true, width := 1000, ws_alpha := 1, workspace := 0,
    prev_workspace := none, context := RenderContext.reset }

/-- An output at rest whose current workspace has a fullscreen view. -/
def outFullscreen : OutputState :=
  { enabled := true, width := 1000, ws_alpha := 1, workspace := 3,
    prev_workspace := some 3, context := RenderContext.reset }

/-- Sample workspace lookup whose workspace 3 has a fullscreen view. -/
def sampleWssFs : Nat → Workspace :=
  fun n => if n = 3 then { index := 3, views := [viewA, viewB], fullscreen_view := some viewB }
           else wsCur

/-- The all-unbound initial client state of bind_interfaces. -/
def clientStart : ClientState :=
  { virtual_keyboard_manager := false, layer_shell := false, seat := false }

/-! Helper lemmas shared by the claim theorems. -/

theorem alpha_step_of_pending (o : OutputState) (h : switch_pending o) :
    alpha_step o = 1 / 10 := by
  unfold alpha_step
  rw [if_pos h]
  norm_num

theorem alpha_step_of_not_pending (o : OutputState) (h : ¬ switch_pending o)
    (h1 : o.ws_alpha ≤ 1) :
    alpha_step o = min (o.ws_alpha + 1 / 10) 1 := by
  unfold alpha_step
  rw [if_neg h]
  dsimp only
  rw [if_pos h1]
  rcases le_or_lt (o.ws_alpha + 1 / 10) 1 with hle | hlt
  · rw [if_neg (not_lt.mpr hle), min_eq_left hle]
  · rw [if_pos hlt, min_eq_right hlt.le]

theorem alpha_step_nonneg (o : OutputState) (h0 : 0 ≤ o.ws_alpha) :
    0 ≤ alpha_step o := by
  unfold alpha_step
  dsimp only
  split_ifs <;> linarith

theorem alpha_step_le_one (o : OutputState) : alpha_step o ≤ 1 := by
  unfold alpha_step
  dsimp only
  split_ifs <;> linarith

theorem render_ws_alpha (wss : Nat → Workspace) (o : OutputState)
    (hen : o.enabled = true) :
    (render wss o).1.ws_alpha = alpha_step o := by
  unfold render
  rw [if_pos hen]
  dsimp only
  split <;> rfl

theorem render_disabled (wss : Nat → Workspace) (o : OutputState)
    (hen : o.enabled = false) :
    render wss o = (o, []) := by
  unfold render
  rw [if_neg (by rw [hen]; exact Bool.false_ne_true)]

theorem render_fullscreen_branch (wss : Nat → Workspace) (o : OutputState)
    (hen : o.enabled = true)
    (hbr : o.prev_workspace = some o.workspace ∧
      ((wss o.workspace).fullscreen_view).isSome = true) :
    render wss o =
      ({ o with ws_alpha := alpha_step o,
                context := { views := [],
                             fullscreen_view := (wss o.workspace).fullscreen_view } },
       RenderEffect.doRender
           { views := [], fullscreen_view := (wss o.workspace).fullscreen_view } ::
         (if alpha_step o < 1 then [RenderEffect.damageWhole] else [])) := by
  unfold render
  rw [if_pos hen]
  dsimp only
  rw [if_pos hbr]
  rfl

theorem render_transition_branch (wss : Nat → Workspace) (o : OutputState)
    (hen : o.enabled = true)
    (hbr : ¬ (o.prev_workspace = some o.workspace ∧
      ((wss o.workspace).fullscreen_view).isSome = true)) :
    render wss o =
      ({ o with ws_alpha := alpha_step o,
                prev_workspace :=
                  if 1 ≤ alpha_step o then some o.workspace else o.prev_workspace,
                context :=
                  { views := prev_views wss o (alpha_step o) ++
                      cur_views wss o
                        (if 1 ≤ alpha_step o then some o.workspace else o.prev_workspace)
                        (alpha_step o),
                    fullscreen_view := none } },
       RenderEffect.doRender
           { views := prev_views wss o (alpha_step o) ++
               cur_views wss o
                 (if 1 ≤ alpha_step o then some o.workspace else o.prev_workspace)
                 (alpha_step o),
             fullscreen_view := none } ::
         (if alpha_step o < 1 then [RenderEffect.damageWhole] else [])) := by
  unfold render
  rw [if_pos hen]
  dsimp only
  rw [if_neg hbr]
  rfl

theorem prev_views_some (wss : Nat → Workspace) (o : OutputState) (a2 : ℚ) (p : Nat)
    (hp : o.prev_workspace = some p) (ha : 0 < 1 - a2) :
    prev_views wss o a2 =
      ((wss p).visible_views).map (fun v =>
        (v, { get_render_data v with
                alpha := v.alpha * (1 - a2),
                layout.x := v.x -
                  (if (wss o.workspace).index < (wss p).index
                   then -((o.width : ℚ) * a2) else (o.width : ℚ) * a2) })) := by
  unfold prev_views
  rw [hp]
  dsimp only
  rw [if_pos ha]

theorem prev_views_done (wss : Nat → Workspace) (o : OutputState) (a2 : ℚ)
    (ha : ¬ 0 < 1 - a2) :
    prev_views wss o a2 = [] := by
  unfold prev_views
  cases o.prev_workspace with
  | none => rfl
  | some p => dsimp only; rw [if_neg ha]

theorem cur_views_pos (wss : Nat → Workspace) (o : OutputState)
    (prevAfter : Option Nat) (a2 : ℚ) (ha : 0 < a2) :
    cur_views wss o prevAfter a2 =
      ((wss o.workspace).visible_views).map (fun v =>
        (v, { get_render_data v with
                alpha := v.alpha * a2,
                layout.x := v.x +
                  (match prevAfter with
                   | some p =>
                     if (wss o.workspace).index < (wss p).index
                     then -((o.width : ℚ) * (1 - a2)) else (o.width : ℚ) * (1 - a2)
                   | none => (o.width : ℚ) * (1 - a2)) })) := by
  unfold cur_views
  rw [if_pos ha]

theorem orElse_some_fixed {α : Type} (x : Option α) (a : α) (g : Unit → Option α) :
    (x.orElse (fun _ => some a)).orElse g = x.orElse (fun _ => some a) := by
  cases x <;> rfl

theorem lastDimMode_eq_none_iff (cw ch : Int) (modes : List OutputMode) :
    lastDimMode cw ch modes = none ↔
      ∀ m ∈ modes, ¬ (m.width = cw ∧ m.height = ch) := by
  induction modes with
  | nil => simp [lastDimMode]
  | cons m rest ih =>
    by_cases hdim : m.width = cw ∧ m.height = ch
    · simp only [lastDimMode, if_pos hdim]
      constructor
      · intro h
        exact absurd h (by cases lastDimMode cw ch rest <;> simp [Option.orElse])
      · intro h
        exact absurd hdim (h m (List.mem_cons_self m rest))
    · simp only [lastDimMode, if_neg hdim, ih]
      constructor
      · intro h x hx
        rcases List.mem_cons.mp hx with h1 | h2
        · rw [h1]; exact hdim
        · exact h x h2
      · intro h x hx
        exact h x (List.mem_cons_of_mem m hx)

theorem firstExactMode_eq_none_of_no_dim (cw ch mhz : Int) (modes : List OutputMode)
    (hnd : ∀ m ∈ modes, ¬ (m.width = cw ∧ m.height = ch)) :
    firstExactMode cw ch mhz modes = none := by
  induction modes with
  | nil => rfl
  | cons m rest ih =>
    have hm : ¬ (m.width = cw ∧ m.height = ch ∧ m.refresh = mhz) := by
      rintro ⟨hw, hh, -⟩
      exact hnd m (List.mem_cons_self m rest) ⟨hw, hh⟩
    simp only [firstExactMode, if_neg hm]
    exact ih (fun x hx => hnd x (List.mem_cons_of_mem m hx))

theorem set_mode_scan_eq (cw ch mhz : Int) (modes : List OutputMode)
    (b : Option OutputMode) :
    set_mode_scan cw ch mhz modes b =
      (firstExactMode cw ch mhz modes).orElse
        (fun _ => (lastDimMode cw ch modes).orElse (fun _ => b)) := by
  induction modes generalizing b with
  | nil => rfl
  | cons m rest ih =>
    by_cases hdim : m.width = cw ∧ m.height = ch
    · by_cases hr : m.refresh = mhz
      · have hx : m.width = cw ∧ m.height = ch ∧ m.refresh = mhz :=
          ⟨hdim.1, hdim.2, hr⟩
        simp only [set_mode_scan, if_pos hdim, if_pos hr, firstExactMode, if_pos hx]
        rfl
      · have hx : ¬ (m.width = cw ∧ m.height = ch ∧ m.refresh = mhz) := by
          rintro ⟨-, -, h⟩; exact hr h
        simp only [set_mode_scan, if_pos hdim, if_neg hr, firstExactMode, if_neg hx,
          lastDimMode]
        rw [ih (some m), orElse_some_fixed (lastDimMode cw ch rest) m]
    · have hx : ¬ (m.width = cw ∧ m.height = ch ∧ m.refresh = mhz) := by
        rintro ⟨hw, hh, -⟩; exact hdim ⟨hw, hh⟩
      simp only [set_mode_scan, if_neg hdim, firstExactMode, if_neg hx, lastDimMode]
      exact ih b

theorem set_mode_nil (oc : ConfigMode) :
    set_mode [] oc =
      SetModeResult.custom oc.width oc.height
        (ratTruncToZero (oc.refresh_rate * 1000)) := rfl

theorem set_mode_exact (modes : List OutputMode) (oc : ConfigMode) (m : OutputMode)
    (hfe : firstExactMode oc.width oc.height
      (ratTruncToZero (oc.refresh_rate * 1000)) modes = some m) :
    set_mode modes oc = SetModeResult.assign m := by
  cases modes with
  | nil => simp [firstExactMode] at hfe
  | cons m0 rest =>
    unfold set_mode
    dsimp only
    rw [List.isEmpty_cons, if_neg Bool.false_ne_true, set_mode_scan_eq, hfe]
    rfl

theorem set_mode_last (modes : List OutputMode) (oc : ConfigMode) (m : OutputMode)
    (hfe : firstExactMode oc.width oc.height
      (ratTruncToZero (oc.refresh_rate * 1000)) modes = none)
    (hld : lastDimMode oc.width oc.height modes = some m) :
    set_mode modes oc = SetModeResult.assign m := by
  cases modes with
  | nil => simp [lastDimMode] at hld
  | cons m0 rest =>
    unfold set_mode
    dsimp only
    rw [List.isEmpty_cons, if_neg Bool.false_ne_true, set_mode_scan_eq, hfe, hld]
    rfl

theorem set_mode_no_dim_match (modes : List OutputMode) (oc : ConfigMode)
    (hne : modes ≠ [])
    (hnd : ∀ m ∈ modes, ¬ (m.width = oc.width ∧ m.height = oc.height)) :
    set_mode modes oc = SetModeResult.configError := by
  have hfe : firstExactMode oc.width oc.height
      (ratTruncToZero (oc.refresh_rate * 1000)) modes = none :=
    firstExactMode_eq_none_of_no_dim _ _ _ modes hnd
  have hld : lastDimMode oc.width oc.height modes = none :=
    (lastDimMode_eq_none_iff oc.width oc.height modes).mpr hnd
  cases modes with
  | nil => exact absurd rfl hne
  | cons m0 rest =>
    unfold set_mode
    dsimp only
    rw [List.isEmpty_cons, if_neg Bool.false_ne_true, set_mode_scan_eq, hfe, hld]
    rfl

/-- C5: every invocation of render() on an enabled Output advances ws_alpha
by the fixed step 0.1 clamped to 1 (starting from 0 when a pending switch
resets it first), so that after the update ws_alpha lies in the interval
from 0 to 1. -/
theorem C5_alpha_step_clamped (wss : Nat → Workspace) (o : OutputState)
    (hen : o.enabled = true) (h0 : 0 ≤ o.ws_alpha) (h1 : o.ws_alpha ≤ 1) :
    0 ≤ (render wss o).1.ws_alpha ∧ (render wss o).1.ws_alpha ≤ 1 ∧
    (¬ switch_pending o →
      (render wss o).1.ws_alpha = min (o.ws_alpha + 1 / 10) 1) ∧
    (switch_pending o → (render wss o).1.ws_alpha = 1 / 10) := by
  rw [render_ws_alpha wss o hen]
  exact ⟨alpha_step_nonneg o h0, alpha_step_le_one o,
    fun h => alpha_step_of_not_pending o h h1, alpha_step_of_pending o⟩

/-- Witness for C5 at a concrete mid-transition output. -/
theorem C5_alpha_step_clamped_witness :
    0 ≤ (render sampleWss outMid).1.ws_alpha ∧
    (render sampleWss outMid).1.ws_alpha ≤ 1 ∧
    (render sampleWss outMid).1.ws_alpha = min (1 / 5 + 1 / 10) 1 := by
  have h := C5_alpha_step_clamped sampleWss outMid rfl (by norm_num [outMid])
    (by norm_num [outMid])
  exact ⟨h.1, h.2.1, h.2.2.1 (by with_unfolding_all decide)⟩

/-- C8: after the batch is handed to the renderer, render() marks the whole
output area damaged exactly when ws_alpha is still below 1; once ws_alpha has
reached 1 no whole-output damage is added. -/
theorem C8_damage_while_animating (wss : Nat → Workspace) (o : OutputState)
    (hen : o.enabled = true) :
    ((render wss o).1.ws_alpha < 1 →
      (render wss o).2 = [RenderEffect.doRender (render wss o).1.context,
                          RenderEffect.damageWhole]) ∧
    (1 ≤ (render wss o).1.ws_alpha →
      (render wss o).2 = [RenderEffect.doRender (render wss o).1.context]) := by
  by_cases hbr : o.prev_workspace = some o.workspace ∧
      ((wss o.workspace).fullscreen_view).isSome = true
  · rw [render_fullscreen_branch wss o hen hbr]
    dsimp only
    constructor
    · intro h; rw [if_pos h]
    · intro h; rw [if_neg (not_lt.mpr h)]
  · rw [render_transition_branch wss o hen hbr]
    dsimp only
    constructor
    · intro h; rw [if_pos h]
    · intro h; rw [if_neg (not_lt.mpr h)]

/-- Witness for C8: a mid-transition render damages the whole output, a
completed one does not. -/
theorem C8_damage_while_animating_witness :
    (render sampleWss outMid).2 =
      [RenderEffect.doRender (render sampleWss outMid).1.context,
       RenderEffect.damageWhole] ∧
    (render sampleWss outDone).2 =
      [RenderEffect.doRender (render sampleWss outDone).1.context] :=
  ⟨(C8_damage_while_animating sampleWss outMid rfl).1 (by with_unfolding_all decide),
   (C8_damage_while_animating sampleWss outDone rfl).2 (by with_unfolding_all decide)⟩

/-- C6: when the active and previous workspace are identical and the active
workspace has a fullscreen view, the batch consists of exactly that view
(the fullscreen field of the context) with no per-view transition data
appended, and that batch is what is handed to the renderer. -/
theorem C6_fullscreen_bypass (wss : Nat → Workspace) (o : OutputState) (v : View)
    (hen : o.enabled = true) (hprev : o.prev_workspace = some o.workspace)
    (hfs : (wss o.workspace).fullscreen_view = some v) :
    (render wss o).1.context = { views := [], fullscreen_view := some v } ∧
    (render wss o).2.head? =
      some (RenderEffect.doRender { views := [], fullscreen_view := some v }) := by
  have hbr : o.prev_workspace = some o.workspace ∧
      ((wss o.workspace).fullscreen_view).isSome = true := ⟨hprev, by rw [hfs]; rfl⟩
  rw [render_fullscreen_branch wss o hen hbr]
  dsimp only
  rw [hfs]
  exact ⟨rfl, rfl⟩

/-- Witness for C6 at an output whose workspace has a fullscreen view. -/
theorem C6_fullscreen_bypass_witness :
    (render sampleWssFs outFullscreen).1.context =
      { views := [], fullscreen_view := some viewB } :=
  (C6_fullscreen_bypass sampleWssFs outFullscreen viewB rfl rfl rfl).1

/-- C1: during a workspace transition on an enabled output (previous
workspace present and distinct from the current one, blend factor strictly
between 0 and 1 after the step), the batch holds every visible view of the
previous workspace with opacity scaled by one minus the blend factor and x
shifted against dx, where dx is output width times the blend factor negated
when the new index is below the previous index, followed by every visible
view of the current workspace with opacity scaled by the blend factor and x
shifted by the complementary dx under the same sign rule.  Instantiated at
indices 2 to 0, width 1000 and blend 0.3 by the witness, this puts previous
views at offset plus 300 with factor 0.7 and new views at offset minus 700
with factor 0.3. -/
theorem C1_transition_batch (wss : Nat → Workspace) (o : OutputState) (p : Nat)
    (hen : o.enabled = true) (hprev : o.prev_workspace = some p)
    (hne : p ≠ o.workspace) (h0 : 0 ≤ o.ws_alpha) (h1 : o.ws_alpha + 1 / 10 < 1) :
    (render wss o).1.context.views =
      ((wss p).visible_views).map (fun v =>
        (v, { get_render_data v with
                alpha := v.alpha * (1 - (o.ws_alpha + 1 / 10)),
                layout.x := v.x -
                  (if (wss o.workspace).index < (wss p).index
                   then -((o.width : ℚ) * (o.ws_alpha + 1 / 10))
                   else (o.width : ℚ) * (o.ws_alpha + 1 / 10)) }))
      ++ ((wss o.workspace).visible_views).map (fun v =>
        (v, { get_render_data v with
                alpha := v.alpha * (o.ws_alpha + 1 / 10),
                layout.x := v.x +
                  (if (wss o.workspace).index < (wss p).index
                   then -((o.width : ℚ) * (1 - (o.ws_alpha + 1 / 10)))
                   else (o.width : ℚ) * (1 - (o.ws_alpha + 1 / 10))) })) := by
  have hlt : o.ws_alpha < 1 := by linarith
  have hnp : ¬ switch_pending o := fun hsw => absurd hsw.2.2 (not_le.mpr hlt)
  have ha2 : alpha_step o = o.ws_alpha + 1 / 10 := by
    rw [alpha_step_of_not_pending o hnp hlt.le, min_eq_left (by linarith)]
  have hbr : ¬ (o.prev_workspace = some o.workspace ∧
      ((wss o.workspace).fullscreen_view).isSome = true) := by
    rintro ⟨hpw, -⟩
    rw [hprev] at hpw
    exact hne (Option.some.inj hpw)
  rw [render_transition_branch wss o hen hbr]
  dsimp only
  rw [ha2, if_neg (not_le.mpr h1), hprev,
    prev_views_some wss o (o.ws_alpha + 1 / 10) p hprev (by linarith),
    cur_views_pos wss o (some p) (o.ws_alpha + 1 / 10) (by linarith)]

set_option maxRecDepth 4000 in
/-- Witness for C1: switching from index 2 to index 0 on a width-1000 output
at blend 0.3 offsets the previous view by plus 300 at factor 0.7 and the new
view by minus 700 at factor 0.3. -/
theorem C1_transition_batch_witness :
    (render sampleWss outMid).1.context.views =
      [(viewB, { layout := { x := 310, y := 0, width := 100, height := 100,
                             rotation := 0 },
                 alpha := 7 / 10 }),
       (viewA, { layout := { x := -690, y := 0, width := 100, height := 100,
                             rotation := 0 },
                 alpha := 3 / 10 })] := by
  rw [C1_transition_batch sampleWss outMid 2 rfl rfl (by decide)
    (by norm_num [outMid]) (by norm_num [outMid])]
  with_unfolding_all decide

/-- Counterexample to C2 as stated: on a width-1000 output finishing its
transition (blend 0.95 stepping to 1), render() reaches ws_alpha = 1 yet
leaves prev_workspace non-null: it is set to the current workspace, not
cleared to null. -/
theorem C2_counterexample :
    (render sampleWss outFinishing).1.ws_alpha = 1 ∧
    (render sampleWss outFinishing).1.prev_workspace ≠ none := by
  with_unfolding_all decide

/-- C2 as amended: prev_workspace differs from the current workspace only
while ws_alpha is below 1.  Once ws_alpha reaches 1 during render(),
prev_workspace is set equal to the current workspace (transition complete)
rather than to null, and this happens before the current workspace's views
are appended, so a render after a completed transition emits exactly the new
workspace's views, unscaled and unshifted. -/
theorem C2_transition_completion (wss : Nat → Workspace) (o : OutputState)
    (hen : o.enabled = true) :
    (1 ≤ (render wss o).1.ws_alpha →
      (render wss o).1.prev_workspace = some o.workspace) ∧
    (o.prev_workspace = some o.workspace → o.ws_alpha = 1 →
      (wss o.workspace).fullscreen_view = none →
      (render wss o).1.context.views =
        ((wss o.workspace).visible_views).map (fun v => (v, get_render_data v))) := by
  constructor
  · intro hge
    rw [render_ws_alpha wss o hen] at hge
    by_cases hbr : o.prev_workspace = some o.workspace ∧
        ((wss o.workspace).fullscreen_view).isSome = true
    · rw [render_fullscreen_branch wss o hen hbr]
      exact hbr.1
    · rw [render_transition_branch wss o hen hbr]
      dsimp only
      rw [if_pos hge]
  · intro hprev hone hfs
    have hnp : ¬ switch_pending o := fun hsw => hsw.1 hprev
    have ha2 : alpha_step o = 1 := by
      rw [alpha_step_of_not_pending o hnp (le_of_eq hone), hone]
      rw [min_eq_right (by norm_num)]
    have hbr : ¬ (o.prev_workspace = some o.workspace ∧
        ((wss o.workspace).fullscreen_view).isSome = true) := by
      rintro ⟨-, hsome⟩
      rw [hfs] at hsome
      exact Bool.false_ne_true hsome
    rw [render_transition_branch wss o hen hbr]
    dsimp only
    rw [ha2, prev_views_done wss o 1 (by norm_num), if_pos le_rfl,
      cur_views_pos wss o (some o.workspace) 1 (by norm_num)]
    dsimp only
    rw [if_neg (lt_irrefl (wss o.workspace).index)]
    rw [List.nil_append]
    apply List.map_congr_left
    intro v _
    have hx : v.x + (o.width : ℚ) * (1 - 1) = v.x := by ring
    have hal : v.alpha * 1 = v.alpha := mul_one v.alpha
    rw [hx, hal]
    rfl

/-- Witness for the amended C2: after a completed transition, the next render
keeps prev_workspace equal to the workspace and emits exactly the new
workspace's view unscaled. -/
theorem C2_transition_completion_witness :
    (render sampleWss outDone).1.prev_workspace = some 0 ∧
    (render sampleWss outDone).1.context.views = [(viewA, get_render_data viewA)] := by
  have h := C2_transition_completion sampleWss outDone rfl
  refine ⟨h.1 (by with_unfolding_all decide), ?_⟩
  rw [h.2 rfl rfl rfl]
  with_unfolding_all decide

/-- C4: switching workspaces is a pure state change: when prev_workspace is
unset and ws_alpha is at least 1, prev_workspace becomes the old workspace,
workspace becomes the target, and ws_alpha resets to 0; while a transition is
in flight (prev_workspace set or ws_alpha below 1) the switch is rejected and
the state is unchanged. -/
theorem C4_switch_pure_state (o : OutputState) (target : Nat) :
    (o.prev_workspace = none → 1 ≤ o.ws_alpha →
      switch_workspace o target =
        { o with prev_workspace := some o.workspace, workspace := target,
                 ws_alpha := 0 }) ∧
    (o.prev_workspace ≠ none ∨ o.ws_alpha < 1 → switch_workspace o target = o) := by
  constructor
  · intro hn hge
    unfold switch_workspace
    rw [if_pos ⟨hn, hge⟩]
  · intro hrej
    unfold switch_workspace
    rw [if_neg]
    rintro ⟨hn, hge⟩
    rcases hrej with h | h
    · exact h hn
    · exact absurd hge (not_le.mpr h)

/-- Witness for C4: a free output accepts a switch to workspace 5; an output
mid-transition rejects a switch to workspace 7. -/
theorem C4_switch_pure_state_witness :
    switch_workspace outFree 5 =
      { outFree with prev_workspace := some outFree.workspace, workspace := 5,
                     ws_alpha := 0 } ∧
    switch_workspace outMid 7 = outMid :=
  ⟨(C4_switch_pure_state outFree 5).1 rfl (by norm_num [outFree]),
   (C4_switch_pure_state outMid 7).2 (Or.inl (by decide))⟩

/-- Counterexample to C9 as stated: starting unbound, a first
virtual-keyboard-manager announcement binds it, yet a second announcement of
the already-bound global issues a second bind; binding is only skipped for
the seat, not for every already-bound global. -/
theorem C9_counterexample :
    (bind_interfaces clientStart [Iface.virtualKeyboardManager]).1.virtual_keyboard_manager
      = true ∧
    (bind_interfaces clientStart
        [Iface.virtualKeyboardManager, Iface.virtualKeyboardManager]).2
      = [Iface.virtualKeyboardManager, Iface.virtualKeyboardManager] := by
  decide

theorem seat_binds_le (s : ClientState) (es : List Iface) :
    (bind_interfaces s es).2.count Iface.seat ≤ if s.seat then 0 else 1 := by
  induction es generalizing s with
  | nil =>
    simp only [bind_interfaces, List.count_nil]
    split <;> norm_num
  | cons i rest ih =>
    cases i with
    | virtualKeyboardManager =>
      simpa [bind_interfaces, handle_global, List.count_cons]
        using ih { s with virtual_keyboard_manager := true }
    | layerShell =>
      simpa [bind_interfaces, handle_global, List.count_cons]
        using ih { s with layer_shell := true }
    | seat =>
      by_cases hs : s.seat = true
      · simpa [bind_interfaces, handle_global, hs] using ih s
      · have h1 : (bind_interfaces { s with seat := true } rest).2.count Iface.seat = 0 :=
          Nat.le_zero.mp (by simpa using ih { s with seat := true })

        simp [bind_interfaces, handle_global, hs, List.count_cons, h1]
    | otherGlobal =>
      simpa [bind_interfaces, handle_global] using ih s

theorem vkm_binds_eq (s : ClientState) (es : List Iface) :
    (bind_interfaces s es).2.count Iface.virtualKeyboardManager =
      es.count Iface.virtualKeyboardManager := by
  induction es generalizing s with
  | nil => rfl
  | cons i rest ih =>
    cases i with
    | virtualKeyboardManager =>
      simpa [bind_interfaces, handle_global, List.count_cons]
        using ih { s with virtual_keyboard_manager := true }
    | layerShell =>
      simpa [bind_interfaces, handle_global, List.count_cons]
        using ih { s with layer_shell := true }
    | seat =>
      by_cases hs : s.seat = true
      · simpa [bind_interfaces, handle_global, hs, List.count_cons] using ih s
      · simpa [bind_interfaces, handle_global, hs, List.count_cons]
          using ih { s with seat := true }
    | otherGlobal =>
      simpa [bind_interfaces, handle_global, List.count_cons] using ih s

theorem layer_binds_eq (s : ClientState) (es : List Iface) :
    (bind_interfaces s es).2.count Iface.layerShell = es.count Iface.layerShell := by
  induction es generalizing s with
  | nil => rfl
  | cons i rest ih =>
    cases i with
    | virtualKeyboardManager =>
      simpa [bind_interfaces, handle_global, List.count_cons]
        using ih { s with virtual_keyboard_manager := true }
    | layerShell =>
      simpa [bind_interfaces, handle_global, List.count_cons]
        using ih { s with layer_shell := true }
    | seat =>
      by_cases hs : s.seat = true
      · simpa [bind_interfaces, handle_global, hs, List.count_cons] using ih s
      · simpa [bind_interfaces, handle_global, hs, List.count_cons]
          using ih { s with seat := true }
    | otherGlobal =>
      simpa [bind_interfaces, handle_global, List.count_cons] using ih s

/-- C9 as amended: only the seat binding is idempotent: over any announcement
sequence at most one seat bind is issued (none when a seat is already bound),
while virtual-keyboard-manager and layer-shell announcements each issue a
bind every time, bound already or not. -/
theorem C9_seat_bind_idempotent (s : ClientState) (es : List Iface) :
    ((bind_interfaces s es).2.count Iface.seat ≤ if s.seat then 0 else 1) ∧
    ((bind_interfaces s es).2.count Iface.virtualKeyboardManager =
      es.count Iface.virtualKeyboardManager) ∧
    ((bind_interfaces s es).2.count Iface.layerShell = es.count Iface.layerShell) :=
  ⟨seat_binds_le s es, vkm_binds_eq s es, layer_binds_eq s es⟩

/-- C3: set_mode with a configured target: with no advertised modes a custom
mode with the target dimensions (and truncated millihertz refresh) is
requested; otherwise an exact refresh match among the width/height matches is
selected as soon as it is found, else the last width/height match encountered
is selected; with no width/height match at all a configuration error results
and no mode is set; and on advertised modes 1920x1080 at 60 Hz and 144 Hz
with target 1920x1080 at 144 Hz, exactly the 144 Hz mode is selected. -/
theorem C3_set_mode_negotiation (modes : List OutputMode) (oc : ConfigMode) :
    (modes = [] → set_mode modes oc =
      SetModeResult.custom oc.width oc.height
        (ratTruncToZero (oc.refresh_rate * 1000))) ∧
    (∀ m, firstExactMode oc.width oc.height
        (ratTruncToZero (oc.refresh_rate * 1000)) modes = some m →
      set_mode modes oc = SetModeResult.assign m) ∧
    (firstExactMode oc.width oc.height
        (ratTruncToZero (oc.refresh_rate * 1000)) modes = none →
      ∀ m, lastDimMode oc.width oc.height modes = some m →
      set_mode modes oc = SetModeResult.assign m) ∧
    (modes ≠ [] → (∀ m ∈ modes, ¬ (m.width = oc.width ∧ m.height = oc.height)) →
      set_mode modes oc = SetModeResult.configError) ∧
    set_mode [⟨1920, 1080, 60000⟩, ⟨1920, 1080, 144000⟩] ⟨1920, 1080, 144⟩ =
      SetModeResult.assign ⟨1920, 1080, 144000⟩ := by
  refine ⟨?_, ?_, ?_, ?_, ?_⟩
  · rintro rfl
    exact set_mode_nil oc
  · exact fun m h => set_mode_exact modes oc m h
  · exact fun h m h2 => set_mode_last modes oc m h h2
  · exact fun h1 h2 => set_mode_no_dim_match modes oc h1 h2
  · exact set_mode_exact [⟨1920, 1080, 60000⟩, ⟨1920, 1080, 144000⟩]
      ⟨1920, 1080, 144⟩ ⟨1920, 1080, 144000⟩
      (by norm_num [firstExactMode, ratTruncToZero])

/-- Witness for C3: the empty-list custom request and the exact 144 Hz
selection, obtained through the claim theorem. -/
theorem C3_set_mode_negotiation_witness :
    set_mode [] ⟨1920, 1080, 144⟩ =
      SetModeResult.custom 1920 1080 (ratTruncToZero ((144 : ℚ) * 1000)) ∧
    set_mode [⟨1920, 1080, 60000⟩, ⟨1920, 1080, 144000⟩] ⟨1920, 1080, 144⟩ =
      SetModeResult.assign ⟨1920, 1080, 144000⟩ :=
  ⟨(C3_set_mode_negotiation [] ⟨1920, 1080, 144⟩).1 rfl,
   (C3_set_mode_negotiation [⟨1920, 1080, 60000⟩, ⟨1920, 1080, 144000⟩]
       ⟨1920, 1080, 144⟩).2.1 ⟨1920, 1080, 144000⟩
     (by norm_num [firstExactMode, ratTruncToZero])⟩

/-- C10: set_mode compares refresh rates in integer millihertz obtained by
truncating refresh_rate * 1000 toward zero: among two distinct advertised
modes matching the target dimensions, the first is selected exactly when its
integer refresh field equals the truncated millihertz value, which for a
nonnegative rate holds exactly when refresh ≤ rate * 1000 < refresh + 1. -/
theorem C10_millihertz_truncation (oc : ConfigMode) (m1 m2 : OutputMode)
    (h1w : m1.width = oc.width) (h1h : m1.height = oc.height)
    (h2w : m2.width = oc.width) (h2h : m2.height = oc.height)
    (hne : m1 ≠ m2) :
    (set_mode [m1, m2] oc = SetModeResult.assign m1 ↔
      m1.refresh = ratTruncToZero (oc.refresh_rate * 1000)) ∧
    (0 ≤ oc.refresh_rate →
      (m1.refresh = ratTruncToZero (oc.refresh_rate * 1000) ↔
        ((m1.refresh : ℚ) ≤ oc.refresh_rate * 1000 ∧
          oc.refresh_rate * 1000 < (m1.refresh : ℚ) + 1))) := by
  constructor
  · by_cases hr1 : m1.refresh = ratTruncToZero (oc.refresh_rate * 1000)
    · have hsel : set_mode [m1, m2] oc = SetModeResult.assign m1 :=
        set_mode_exact [m1, m2] oc m1 (by
          simp only [firstExactMode]
          rw [if_pos ⟨h1w, h1h, hr1⟩])
      rw [hsel]
      exact iff_of_true rfl hr1
    · have hsel : set_mode [m1, m2] oc = SetModeResult.assign m2 := by
        by_cases hr2 : m2.refresh = ratTruncToZero (oc.refresh_rate * 1000)
        · exact set_mode_exact [m1, m2] oc m2 (by
            simp only [firstExactMode]
            rw [if_neg (fun hx => hr1 hx.2.2), if_pos ⟨h2w, h2h, hr2⟩])
        · refine set_mode_last [m1, m2] oc m2 ?_ ?_
          · simp only [firstExactMode]
            rw [if_neg (fun hx => hr1 hx.2.2), if_neg (fun hx => hr2 hx.2.2)]
          · simp only [lastDimMode]
            rw [if_pos ⟨h1w, h1h⟩, if_pos ⟨h2w, h2h⟩]
            rfl
      rw [hsel]
      constructor
      · intro h
        exact absurd (SetModeResult.assign.inj h).symm hne
      · intro h
        exact absurd h hr1
  · intro hpos
    have hq : (0 : ℚ) ≤ oc.refresh_rate * 1000 := mul_nonneg hpos (by norm_num)
    rw [ratTruncToZero, if_pos hq, eq_comm, Int.floor_eq_iff]

/-- Witness for C10: a 59.9994 Hz target truncates to 59999 millihertz and
selects the 59999-millihertz mode over the 60000-millihertz one. -/
theorem C10_millihertz_truncation_witness :
    set_mode [⟨1920, 1080, 59999⟩, ⟨1920, 1080, 60000⟩]
        ⟨1920, 1080, 599994 / 10000⟩ = SetModeResult.assign ⟨1920, 1080, 59999⟩ ∧
    ((59999 : ℚ) ≤ (599994 / 10000 : ℚ) * 1000 ∧
      (599994 / 10000 : ℚ) * 1000 < (59999 : ℚ) + 1) := by
  have h := C10_millihertz_truncation ⟨1920, 1080, 599994 / 10000⟩
    ⟨1920, 1080, 59999⟩ ⟨1920, 1080, 60000⟩ rfl rfl rfl rfl (by decide)
  refine ⟨h.1.mpr (by norm_num [ratTruncToZero]), ?_⟩
  have h2 := (h.2 (by norm_num)).mp (by norm_num [ratTruncToZero])
  exact_mod_cast h2

/-- C7: at Output construction, with no mode configured (no config entry, or
a zero configured width) the backend-preferred advertised mode, kept last in
the advertised list, is selected; with a mode configured on an enabled
output, set_mode negotiates the configured target before the first render,
and an advertised mode exactly matching it is the one installed. -/
theorem C7_construction_mode (modes : List OutputMode) :
    (construct_mode modes none = modes.getLast?) ∧
    (∀ oc : OutputConfig, oc.mode.width = 0 →
      construct_mode modes (some oc) = modes.getLast?) ∧
    (∀ oc : OutputConfig, oc.enable = true → oc.mode.width ≠ 0 →
      construct_mode modes (some oc) =
        apply_set_mode modes oc.mode (initial_mode modes)) ∧
    (∀ oc : OutputConfig, oc.enable = true → oc.mode.width ≠ 0 →
      ∀ m, firstExactMode oc.mode.width oc.mode.height
          (ratTruncToZero (oc.mode.refresh_rate * 1000)) modes = some m →
        construct_mode modes (some oc) = some m) := by
  refine ⟨rfl, ?_, ?_, ?_⟩
  · intro oc h0
    unfold construct_mode
    dsimp only
    rw [if_neg]
    · rfl
    · rintro ⟨-, hw⟩
      exact hw h0
  · intro oc hen hw
    unfold construct_mode
    dsimp only
    rw [if_pos ⟨hen, hw⟩]
  · intro oc hen hw m hfe
    unfold construct_mode
    dsimp only
    rw [if_pos ⟨hen, hw⟩]
    unfold apply_set_mode
    rw [set_mode_exact modes oc.mode m hfe]

/-- Witness for C7: with no configuration the last advertised mode is kept;
with a configured 1920x1080 at 144 Hz target the matching advertised mode is
installed. -/
theorem C7_construction_mode_witness :
    construct_mode [⟨1280, 720, 60000⟩, ⟨1920, 1080, 144000⟩] none =
      some ⟨1920, 1080, 144000⟩ ∧
    construct_mode [⟨1280, 720, 60000⟩, ⟨1920, 1080, 144000⟩]
        (some ⟨true, ⟨1920, 1080, 144⟩⟩) = some ⟨1920, 1080, 144000⟩ := by
  have h := C7_construction_mode [⟨1280, 720, 60000⟩, ⟨1920, 1080, 144000⟩]
  refine ⟨?_, ?_⟩
  · rw [h.1]
    rfl
  · exact h.2.2.2 ⟨true, ⟨1920, 1080, 144⟩⟩ rfl (by decide) ⟨1920, 1080, 144000⟩
      (by norm_num [firstExactMode, ratTruncToZero])

end Tablecloth
